import Mathlib

/-!
Verification of the pluggable media storage subsystem: the `MediaStorage`
capability (create/read/delete/exists/metadata/list_keys), the filesystem
backend, the S3 object-store backend's key derivation, the hybrid
(primary + secondary cache) backend with TTL expiry and fallback policy,
and the background cache janitor.

Timestamps (`SystemTime`) are modelled as nanoseconds since the epoch, so
`Duration::from_secs t` becomes `t * 1000000000`, and
`now.duration_since(m).unwrap_or(Duration::ZERO)` becomes truncated
subtraction `now - m` on `Nat`.
-/

namespace MediaStorage

/-- A storage key: an opaque byte sequence (`&[u8]` in the source). -/
abbrev Key := List Nat

/-- A stored blob's content: a byte sequence. -/
abbrev Data := List Nat

/-- Errors surfaced by storage backends: I/O errors (filesystem), database/
service errors (`err!(Database(...))` in the source), and the combined
failure produced by `HybridStorage::delete` when both tiers fail, which
carries both underlying causes. -/
inductive StorageError where
  | ioError (msg : String)
  | database (msg : String)
  | dualDeleteFailure (e1 e2 : StorageError)
deriving DecidableEq, Repr

/-- `Result<T>` of the source: success or a `StorageError`. -/
abbrev Result (α : Type) := Except StorageError α

/-- `StorageMetadata` of `storage/mod.rs`: file size in bytes and last
modified time (nanoseconds since epoch). -/
structure StorageMetadata where
  size : Nat
  modified : Nat
deriving DecidableEq, Repr

/-- `HybridStrategyConfig` of `core/config/media_storage.rs`. -/
structure HybridStrategyConfig where
  write_to_both : Bool
  read_fallback : Bool
  cache_on_read : Bool
  async_secondary_write : Bool
  cache_ttl_seconds : Nat
  max_cache_size_mb : Nat
  enable_cleanup_task : Bool
  cleanup_interval_seconds : Nat
deriving DecidableEq, Repr

/-- The `Default` impl for `HybridStrategyConfig`. -/
def HybridStrategyConfig.defaultConfig : HybridStrategyConfig where
  write_to_both := false
  read_fallback := true
  cache_on_read := true
  async_secondary_write := true
  cache_ttl_seconds := 86400
  max_cache_size_mb := 10240
  enable_cleanup_task := true
  cleanup_interval_seconds := 3600

/-- The observable behaviour of a `dyn MediaStorage` backend (the trait in
`storage/mod.rs`), as a state machine over a medium state `σ`.  `createOp`
additionally receives the ambient clock (`now`, in nanoseconds) with which
the medium stamps the blob's `modified` time; the other operations do not
consult the clock. -/
structure Store (σ : Type) where
  createOp : Nat → σ → Key → Data → Result σ
  readOp : σ → Key → Result (Option Data)
  deleteOp : σ → Key → Result σ
  existsOp : σ → Key → Result Bool
  metadataOp : σ → Key → Result (Option StorageMetadata)
  listKeysOp : σ → Result (List Key)

/-- Which of the two wrapped backends a hybrid sub-call went to. -/
inductive Tier where
  | primary
  | secondary
deriving DecidableEq, Repr

/-- One sub-call issued by the hybrid backend to a wrapped backend. -/
inductive CallEvent where
  | createC (key : Key) (data : Data)
  | readC (key : Key)
  | deleteC (key : Key)
  | existsC (key : Key)
  | metadataC (key : Key)
  | listKeysC
deriving DecidableEq, Repr

/-- A detached fire-and-forget task spawned with `tokio::spawn` (async
secondary write on create, cache-on-read repopulation).  Spawned tasks are
recorded, not executed: their completion is not awaited by the caller. -/
inductive PendingTask where
  | secondaryCreate (key : Key) (data : Data)
deriving DecidableEq, Repr

/-- The pair of medium states of the two backends wrapped by the hybrid. -/
structure HybridState (σp σs : Type) where
  p : σp
  s : σs

/-- The outcome of one hybrid operation: the caller-visible result, the new
states of both wrapped backends, the trace of synchronous sub-calls (with
the tier each went to), and the detached tasks spawned. -/
structure OpResult (α σp σs : Type) where
  res : Result α
  st : HybridState σp σs
  calls : List (Tier × CallEvent)
  spawned : List PendingTask

/-- `HybridStorage` of `storage/hybrid.rs`: a primary and a secondary
backend plus the strategy configuration. -/
structure HybridStorage (σp σs : Type) where
  primary : Store σp
  secondary : Store σs
  config : HybridStrategyConfig

namespace HybridStorage

variable {σp σs : Type}

/-- `HybridStorage::is_cache_expired`: with TTL 0 the cache never expires;
otherwise probe the secondary's metadata (`?` propagates its error), treat
an absent entry as not expired, and otherwise compare
`now.duration_since(modified).unwrap_or(ZERO)` against
`Duration::from_secs(cache_ttl_seconds)`.  Returns the answer together
with the sub-calls made. -/
def is_cache_expired (self : HybridStorage σp σs) (now : Nat) (s : σs)
    (key : Key) : Result Bool × List (Tier × CallEvent) :=
  if self.config.cache_ttl_seconds = 0 then
    (.ok false, [])
  else
    match self.secondary.metadataOp s key with
    | .error e => (.error e, [(.secondary, .metadataC key)])
    | .ok (some meta) =>
      let age := now - meta.modified
      let ttl := self.config.cache_ttl_seconds * 1000000000
      if age > ttl then
        (.ok true, [(.secondary, .metadataC key)])
      else
        (.ok false, [(.secondary, .metadataC key)])
    | .ok none => (.ok false, [(.secondary, .metadataC key)])

/-- `HybridStorage::create`: always write to primary (its failure is the
operation's failure); if `write_to_both`, also write to secondary —
spawned as a detached task when `async_secondary_write`, synchronously
(failure propagates) otherwise. -/
def create (self : HybridStorage σp σs) (now : Nat)
    (st : HybridState σp σs) (key : Key) (data : Data) :
    OpResult Unit σp σs :=
  match self.primary.createOp now st.p key data with
  | .error e => ⟨.error e, st, [(.primary, .createC key data)], []⟩
  | .ok p' =>
    if self.config.write_to_both then
      if self.config.async_secondary_write then
        ⟨.ok (), ⟨p', st.s⟩, [(.primary, .createC key data)],
          [.secondaryCreate key data]⟩
      else
        match self.secondary.createOp now st.s key data with
        | .error e =>
          ⟨.error e, ⟨p', st.s⟩,
            [(.primary, .createC key data), (.secondary, .createC key data)], []⟩
        | .ok s' =>
          ⟨.ok (), ⟨p', s'⟩,
            [(.primary, .createC key data), (.secondary, .createC key data)], []⟩
    else
      ⟨.ok (), ⟨p', st.s⟩, [(.primary, .createC key data)], []⟩

/-- The tail of `HybridStorage::read` after the secondary probe concluded
"miss" or "expired": if `read_fallback`, read the primary — on a hit,
spawn the cache-on-read repopulation when enabled and return the bytes;
on a miss or with fallback disabled return `Ok(None)`. -/
def readPrimary (self : HybridStorage σp σs) (st : HybridState σp σs)
    (key : Key) : OpResult (Option Data) σp σs :=
  if self.config.read_fallback then
    match self.primary.readOp st.p key with
    | .error e => ⟨.error e, st, [(.primary, .readC key)], []⟩
    | .ok (some data) =>
      if self.config.cache_on_read then
        ⟨.ok (some data), st, [(.primary, .readC key)],
          [.secondaryCreate key data]⟩
      else
        ⟨.ok (some data), st, [(.primary, .readC key)], []⟩
    | .ok none => ⟨.ok none, st, [(.primary, .readC key)], []⟩
  else
    ⟨.ok none, st, [], []⟩

/-- `HybridStorage::read`: probe the secondary first (`?` propagates its
error); on a hit, check staleness (`?` propagates) — if expired, delete
the stale secondary copy ignoring failure (`let _ =`) and fall through to
the primary, else return the secondary's bytes; on a miss fall through to
the primary (`readPrimary`). -/
def read (self : HybridStorage σp σs) (now : Nat)
    (st : HybridState σp σs) (key : Key) : OpResult (Option Data) σp σs :=
  match self.secondary.readOp st.s key with
  | .error e => ⟨.error e, st, [(.secondary, .readC key)], []⟩
  | .ok (some data) =>
    let ice := self.is_cache_expired now st.s key
    match ice.1 with
    | .error e => ⟨.error e, st, (.secondary, .readC key) :: ice.2, []⟩
    | .ok true =>
      let s2 := match self.secondary.deleteOp st.s key with
        | .ok s' => s'
        | .error _ => st.s
      let r := self.readPrimary ⟨st.p, s2⟩ key
      ⟨r.res, r.st,
        (.secondary, .readC key) :: ice.2 ++ [(.secondary, .deleteC key)] ++ r.calls,
        r.spawned⟩
    | .ok false =>
      ⟨.ok (some data), st, (.secondary, .readC key) :: ice.2, []⟩
  | .ok none =>
    let r := self.readPrimary st key
    ⟨r.res, r.st, (.secondary, .readC key) :: r.calls, r.spawned⟩

/-- `HybridStorage::delete`: delete from both tiers; fail only when both
fail (combining both causes); a single-side failure is logged and treated
as success. -/
def delete (self : HybridStorage σp σs) (st : HybridState σp σs)
    (key : Key) : OpResult Unit σp σs :=
  let primary_result := self.primary.deleteOp st.p key
  let secondary_result := self.secondary.deleteOp st.s key
  let calls := [(Tier.primary, CallEvent.deleteC key),
    (Tier.secondary, CallEvent.deleteC key)]
  match primary_result, secondary_result with
  | .error e1, .error e2 =>
    ⟨.error (.dualDeleteFailure e1 e2), st, calls, []⟩
  | .error _, .ok s' => ⟨.ok (), ⟨st.p, s'⟩, calls, []⟩
  | .ok p', .error _ => ⟨.ok (), ⟨p', st.s⟩, calls, []⟩
  | .ok p', .ok s' => ⟨.ok (), ⟨p', s'⟩, calls, []⟩

/-- `HybridStorage::exists`: secondary first, primary only on fallback. -/
def existsOp (self : HybridStorage σp σs) (st : HybridState σp σs)
    (key : Key) : OpResult Bool σp σs :=
  match self.secondary.existsOp st.s key with
  | .error e => ⟨.error e, st, [(.secondary, .existsC key)], []⟩
  | .ok true => ⟨.ok true, st, [(.secondary, .existsC key)], []⟩
  | .ok false =>
    if self.config.read_fallback then
      ⟨self.primary.existsOp st.p key, st,
        [(.secondary, .existsC key), (.primary, .existsC key)], []⟩
    else
      ⟨.ok false, st, [(.secondary, .existsC key)], []⟩

/-- `HybridStorage::metadata`: secondary first, primary only on fallback. -/
def metadataOp (self : HybridStorage σp σs) (st : HybridState σp σs)
    (key : Key) : OpResult (Option StorageMetadata) σp σs :=
  match self.secondary.metadataOp st.s key with
  | .error e => ⟨.error e, st, [(.secondary, .metadataC key)], []⟩
  | .ok (some meta) =>
    ⟨.ok (some meta), st, [(.secondary, .metadataC key)], []⟩
  | .ok none =>
    if self.config.read_fallback then
      ⟨self.primary.metadataOp st.p key, st,
        [(.secondary, .metadataC key), (.primary, .metadataC key)], []⟩
    else
      ⟨.ok none, st, [(.secondary, .metadataC key)], []⟩

/-- `HybridStorage::list_keys`: delegate to the primary only. -/
def list_keys (self : HybridStorage σp σs) (st : HybridState σp σs) :
    OpResult (List Key) σp σs :=
  ⟨self.primary.listKeysOp st.p, st, [(.primary, .listKeysC)], []⟩

end HybridStorage

/-! ## In-memory test-double backend

Modelled from the spec: §8 verifies the hybrid policy against functioning
test doubles ("a call-counting test double for primary", "simulated via
test doubles") and §1 speaks of "functioning underlying stores".  The
in-memory store below is such a double: an ideal medium whose operations
never fail, holding one blob (with its write timestamp) per key. -/

/-- One blob held by the in-memory test-double backend, together with the
time it was written (stamps `StorageMetadata.modified`). -/
structure MemEntry where
  data : Data
  modified : Nat
deriving DecidableEq, Repr

/-- The in-memory medium: newest-first association list from key to entry. -/
abbrev MemState := List (Key × MemEntry)

/-- First (most recent) entry stored under `key`, if any. -/
def memFind : MemState → Key → Option MemEntry
  | [], _ => none
  | (k, e) :: rest, key => if k = key then some e else memFind rest key

/-- The in-memory test-double backend as a `Store`: create prepends (the
newest write shadows older ones, i.e. overwrites), read/exists/metadata
look up the newest entry, delete removes every entry under the key and
succeeds on an absent key, and list_keys enumerates all keys. -/
def MemStore : Store MemState where
  createOp := fun now st key data => .ok ((key, ⟨data, now⟩) :: st)
  readOp := fun st key => .ok ((memFind st key).map (·.data))
  deleteOp := fun st key => .ok (st.filter (fun kv => decide (kv.1 ≠ key)))
  existsOp := fun st key => .ok (memFind st key).isSome
  metadataOp := fun st key =>
    .ok ((memFind st key).map (fun e => ⟨e.data.length, e.modified⟩))
  listKeysOp := fun st => .ok (st.map (·.1))

/-! ## base64 (URL_SAFE_NO_PAD) and SHA-256

`encode_key` in `filesystem.rs` and `s3.rs` encodes bytes with the
`base64` crate's URL-safe alphabet, without padding; the filesystem
backend applies it to `sha2::Sha256::digest(key)`. -/

/-- The URL-safe base64 alphabet: `A-Z a-z 0-9 - _`. -/
def b64UrlChar (n : Nat) : Char :=
  if n < 26 then Char.ofNat (65 + n)
  else if n < 52 then Char.ofNat (97 + (n - 26))
  else if n < 62 then Char.ofNat (48 + (n - 52))
  else if n = 62 then Char.ofNat 45
  else Char.ofNat 95

/-- URL-safe, padding-free base64: 3 input bytes become 4 characters; a
final 1-byte (resp. 2-byte) group becomes 2 (resp. 3) characters and no
`=` padding is emitted. -/
def b64Encode : List Nat → List Char
  | [] => []
  | [a] => [b64UrlChar (a / 4), b64UrlChar (a % 4 * 16)]
  | [a, b] =>
    [b64UrlChar (a / 4), b64UrlChar (a % 4 * 16 + b / 16), b64UrlChar (b % 16 * 4)]
  | a :: b :: c :: rest =>
    b64UrlChar (a / 4) :: b64UrlChar (a % 4 * 16 + b / 16) ::
      b64UrlChar (b % 16 * 4 + c / 64) :: b64UrlChar (c % 64) :: b64Encode rest

/-- `fn encode_key(key: &[u8]) -> String` — identical private helper in
`filesystem.rs` and `s3.rs`: `URL_SAFE_NO_PAD.encode(key)`. -/
def encode_key (key : List Nat) : String := String.mk (b64Encode key)

/-- Truncation to a 32-bit word. -/
def w32 (n : Nat) : Nat := n % 4294967296

/-- Right rotation of a 32-bit word by `k` (0 < k < 32). -/
def rotr (x k : Nat) : Nat := w32 (x / 2 ^ k + x % 2 ^ k * 2 ^ (32 - k))

/-- SHA-256 `Ch`. -/
def shaCh (x y z : Nat) : Nat := (x &&& y) ^^^ ((x ^^^ 4294967295) &&& z)

/-- SHA-256 `Maj`. -/
def shaMaj (x y z : Nat) : Nat := (x &&& y) ^^^ (x &&& z) ^^^ (y &&& z)

/-- SHA-256 Σ₀. -/
def bigSigma0 (x : Nat) : Nat := rotr x 2 ^^^ rotr x 13 ^^^ rotr x 22

/-- SHA-256 Σ₁. -/
def bigSigma1 (x : Nat) : Nat := rotr x 6 ^^^ rotr x 11 ^^^ rotr x 25

/-- SHA-256 σ₀. -/
def smallSigma0 (x : Nat) : Nat := rotr x 7 ^^^ rotr x 18 ^^^ x / 8

/-- SHA-256 σ₁. -/
def smallSigma1 (x : Nat) : Nat := rotr x 17 ^^^ rotr x 19 ^^^ x / 1024

/-- The 64 SHA-256 round constants (the fractional bits of the cube roots
of the first 64 primes), written in decimal. -/
def k256 : List Nat :=
  [1116352408, 1899447441, 3049323471, 3921009573, 961987163, 1508970993,
   2453635748, 2870763221, 3624381080, 310598401, 607225278, 1426881987,
   1925078388, 2162078206, 2614888103, 3248222580, 3835390401, 4022224774,
   264347078, 604807628, 770255983, 1249150122, 1555081692, 1996064986,
   2554220882, 2821834349, 2952996808, 3210313671, 3336571891, 3584528711,
   113926993, 338241895, 666307205, 773529912, 1294757372, 1396182291,
   1695183700, 1986661051, 2177026350, 2456956037, 2730485921, 2820302411,
   3259730800, 3345764771, 3516065817, 3600352804, 4094571909, 275423344,
   430227734, 506948616, 659060556, 883997877, 958139571, 1322822218,
   1537002063, 1747873779, 1955562222, 2024104815, 2227730452, 2361852424,
   2428436474, 2756734187, 3204031479, 3329325298]

/-- The eight 32-bit working variables / hash state words of SHA-256. -/
structure Hash8 where
  a : Nat
  b : Nat
  c : Nat
  d : Nat
  e : Nat
  f : Nat
  g : Nat
  h : Nat
deriving DecidableEq, Repr

/-- The SHA-256 initial hash value (the fractional bits of the square
roots of the first 8 primes), written in decimal. -/
def initHash : Hash8 :=
  ⟨1779033703, 3144134277, 1013904242, 2773480762,
   1359893119, 2600822924, 528734635, 1541459225⟩

/-- Big-endian 64-bit length field of the SHA-256 padding. -/
def lenBytes (bits : Nat) : List Nat :=
  [bits / 72057594037927936 % 256, bits / 281474976710656 % 256,
   bits / 1099511627776 % 256, bits / 4294967296 % 256,
   bits / 16777216 % 256, bits / 65536 % 256, bits / 256 % 256, bits % 256]

/-- SHA-256 padding: append `0x80`, zeros up to 56 mod 64, and the
bit-length as a big-endian 64-bit integer. -/
def padMessage (msg : List Nat) : List Nat :=
  msg ++ 128 :: List.replicate ((119 - msg.length % 64) % 64) 0
    ++ lenBytes (msg.length * 8)

/-- Accumulate bytes into 64-byte blocks (`acc` is the current block,
reversed); structural helper for `toBlocks`. -/
def chunk64 (acc : List Nat) : List Nat → List (List Nat)
  | [] => if acc = [] then [] else [acc.reverse]
  | b :: rest =>
    if acc.length = 63 then (b :: acc).reverse :: chunk64 [] rest
    else chunk64 (b :: acc) rest

/-- Split the padded message into 64-byte blocks. -/
def toBlocks (l : List Nat) : List (List Nat) := chunk64 [] l

/-- Big-endian 32-bit words of a block. -/
def bytesToWords : List Nat → List Nat
  | b0 :: b1 :: b2 :: b3 :: rest =>
    (b0 * 16777216 + b1 * 65536 + b2 * 256 + b3) :: bytesToWords rest
  | _ => []

/-- Extend the 16 block words to the 64-entry message schedule. -/
def schedule (block16 : List Nat) : List Nat :=
  (List.range 48).foldl
    (fun ws _ =>
      let i := ws.length
      ws ++ [w32 (smallSigma1 (ws.getD (i - 2) 0) + ws.getD (i - 7) 0 +
        smallSigma0 (ws.getD (i - 15) 0) + ws.getD (i - 16) 0)])
    block16

/-- One SHA-256 round. -/
def shaRound (st : Hash8) (ki wi : Nat) : Hash8 :=
  let t1 := w32 (st.h + bigSigma1 st.e + shaCh st.e st.f st.g + ki + wi)
  let t2 := w32 (bigSigma0 st.a + shaMaj st.a st.b st.c)
  ⟨w32 (t1 + t2), st.a, st.b, st.c, w32 (st.d + t1), st.e, st.f, st.g⟩

/-- Compress one 64-byte block into the running hash state. -/
def compressBlock (h0 : Hash8) (block : List Nat) : Hash8 :=
  let st := (List.zip k256 (schedule (bytesToWords block))).foldl
    (fun st kw => shaRound st kw.1 kw.2) h0
  ⟨w32 (h0.a + st.a), w32 (h0.b + st.b), w32 (h0.c + st.c), w32 (h0.d + st.d),
   w32 (h0.e + st.e), w32 (h0.f + st.f), w32 (h0.g + st.g), w32 (h0.h + st.h)⟩

/-- Big-endian bytes of a 32-bit word. -/
def wordBytes (w : Nat) : List Nat :=
  [w / 16777216 % 256, w / 65536 % 256, w / 256 % 256, w % 256]

/-- `sha2::Sha256::digest`: the 32-byte SHA-256 digest of a message. -/
def sha256 (msg : List Nat) : List Nat :=
  let hs := (toBlocks (padMessage msg)).foldl compressBlock initHash
  wordBytes hs.a ++ wordBytes hs.b ++ wordBytes hs.c ++ wordBytes hs.d ++
    wordBytes hs.e ++ wordBytes hs.f ++ wordBytes hs.g ++ wordBytes hs.h

/-! ## Filesystem backend (`storage/filesystem.rs`)

The disk is modelled as an ideal medium (a newest-first association list
from file path to file), on which the I/O of `create`/`read`/`delete`/
`exists`/`metadata` always reaches the medium; the `NotFound` branches of
the source are the corresponding absent-entry cases. -/

/-- One file on the modelled disk: content plus modified time (set by the
OS at write time, read back by `fs::metadata`). -/
structure FsFile where
  content : Data
  modified : Nat
deriving DecidableEq, Repr

/-- The modelled disk: newest-first association list from path to file. -/
abbrev FsState := List (String × FsFile)

/-- The (most recent) file at `path`, if any. -/
def fsFind : FsState → String → Option FsFile
  | [], _ => none
  | (p, f) :: rest, path => if p = path then some f else fsFind rest path

/-- `FilesystemStorage`: holds the configured root directory. -/
structure FilesystemStorage where
  base_path : String

namespace FilesystemStorage

/-- `FilesystemStorage::get_path`: the file for a key lives at
`base_path/encode_key(Sha256::digest(key))`. -/
def get_path (self : FilesystemStorage) (key : Key) : String :=
  self.base_path ++ "/" ++ encode_key (sha256 key)

/-- `FilesystemStorage::create`: write the full content at `get_path key`
(overwriting), stamping the file with the ambient clock `now`. -/
def create (self : FilesystemStorage) (now : Nat) (st : FsState)
    (key : Key) (data : Data) : Result FsState :=
  .ok ((self.get_path key, ⟨data, now⟩) :: st)

/-- `FilesystemStorage::read`: `fs::read` at `get_path key`, with
`NotFound` mapped to `Ok(None)`. -/
def read (self : FilesystemStorage) (st : FsState) (key : Key) :
    Result (Option Data) :=
  .ok ((fsFind st (self.get_path key)).map (·.content))

/-- `FilesystemStorage::delete`: `fs::remove_file` at `get_path key`, with
`NotFound` ("already deleted") mapped to `Ok(())`. -/
def delete (self : FilesystemStorage) (st : FsState) (key : Key) :
    Result FsState :=
  .ok (st.filter (fun pf => decide (pf.1 ≠ self.get_path key)))

/-- `FilesystemStorage::exists`: `path.exists()`. -/
def existsOp (self : FilesystemStorage) (st : FsState) (key : Key) :
    Result Bool :=
  .ok (fsFind st (self.get_path key)).isSome

/-- `FilesystemStorage::metadata`: file length and modified time, with
`NotFound` mapped to `Ok(None)`. -/
def metadataOp (self : FilesystemStorage) (st : FsState) (key : Key) :
    Result (Option StorageMetadata) :=
  .ok ((fsFind st (self.get_path key)).map
    (fun f => ⟨f.content.length, f.modified⟩))

/-- `FilesystemStorage::list_keys`: a placeholder in the source — always
returns the empty list. -/
def list_keys (_self : FilesystemStorage) (_st : FsState) :
    Result (List Key) :=
  .ok []

/-- The filesystem backend bundled as a `Store` (its `dyn MediaStorage`
view), usable as a hybrid tier. -/
def store (self : FilesystemStorage) : Store FsState where
  createOp := self.create
  readOp := self.read
  deleteOp := self.delete
  existsOp := self.existsOp
  metadataOp := self.metadataOp
  listKeysOp := self.list_keys

end FilesystemStorage

/-! ## S3 object-store backend (`storage/s3.rs`): key derivation and
`list_keys`.

The network-facing operations go through the AWS client and are outside
the shallow embedding; what the claims need is `get_s3_key` (a pure
function of the key and the configured name part prepended to all object
names) and `list_keys` (which performs no request: the source returns
`Ok(Vec::new())` unconditionally). -/

/-- The Unicode replacement character U+FFFD emitted by
`String::from_utf8_lossy` for invalid byte sequences. -/
def replacementChar : Char := Char.ofNat 65533

/-- Is `b` a UTF-8 continuation byte (`0x80..=0xBF`)? -/
def isCont (b : Nat) : Bool := 128 ≤ b && b ≤ 191

/-- Lossy UTF-8 decoding with a fuel argument that makes the recursion
structural: every decoded character consumes at least one byte, so fuel
equal to the byte count (as supplied by `lossyDecode`) never runs out. -/
def lossyDecodeAux : Nat → List Nat → List Char
  | 0, _ => []
  | _ + 1, [] => []
  | fuel + 1, b :: rest =>
    if b < 128 then Char.ofNat b :: lossyDecodeAux fuel rest
    else if 194 ≤ b ∧ b ≤ 223 then
      match rest with
      | c :: r =>
        if isCont c then
          Char.ofNat ((b - 192) * 64 + (c - 128)) :: lossyDecodeAux fuel r
        else replacementChar :: lossyDecodeAux fuel (c :: r)
      | [] => [replacementChar]
    else if 224 ≤ b ∧ b ≤ 239 then
      match rest with
      | c :: r =>
        if (if b = 224 then 160 else 128) ≤ c ∧
            c ≤ (if b = 237 then 159 else 191) then
          match r with
          | d :: r2 =>
            if isCont d then
              Char.ofNat ((b - 224) * 4096 + (c - 128) * 64 + (d - 128)) ::
                lossyDecodeAux fuel r2
            else replacementChar :: lossyDecodeAux fuel (d :: r2)
          | [] => [replacementChar]
        else replacementChar :: lossyDecodeAux fuel (c :: r)
      | [] => [replacementChar]
    else if 240 ≤ b ∧ b ≤ 244 then
      match rest with
      | c :: r =>
        if (if b = 240 then 144 else 128) ≤ c ∧
            c ≤ (if b = 244 then 143 else 191) then
          match r with
          | d :: r2 =>
            if isCont d then
              match r2 with
              | e :: r3 =>
                if isCont e then
                  Char.ofNat ((b - 240) * 262144 + (c - 128) * 4096 +
                    (d - 128) * 64 + (e - 128)) :: lossyDecodeAux fuel r3
                else replacementChar :: lossyDecodeAux fuel (e :: r3)
              | [] => [replacementChar]
            else replacementChar :: lossyDecodeAux fuel (d :: r2)
          | [] => [replacementChar]
        else replacementChar :: lossyDecodeAux fuel (c :: r)
      | [] => [replacementChar]
    else replacementChar :: lossyDecodeAux fuel rest

/-- `String::from_utf8_lossy`, as a list of decoded characters.  Follows
Rust's semantics: a maximal valid prefix of an invalid sequence is
replaced by one U+FFFD (consuming exactly those bytes); overlong
encodings, surrogates and values above U+10FFFF are rejected at the lead
or first continuation byte as in `core::str::validations`. -/
def lossyDecode (l : List Nat) : List Char := lossyDecodeAux l.length l

/-- `char::is_alphanumeric` of Rust on the character set this subsystem
ever sees: ASCII letters and digits.  (Rust's predicate also accepts
non-ASCII Unicode alphanumerics; the replacement character U+FFFD is not
alphanumeric under either reading, and every key exercised in this
development is ASCII.) -/
def rust_is_alphanumeric (c : Char) : Bool :=
  (65 ≤ c.toNat && c.toNat ≤ 90) || (97 ≤ c.toNat && c.toNat ≤ 122) ||
    (48 ≤ c.toNat && c.toNat ≤ 57)

/-- UTF-8 encoded size of one character (for `String::len`, which counts
bytes). -/
def utf8CharLen (c : Char) : Nat :=
  if c.toNat < 128 then 1
  else if c.toNat < 2048 then 2
  else if c.toNat < 65536 then 3
  else 4

/-- `String::len`: the UTF-8 byte length of a string's characters. -/
def utf8Len (l : List Char) : Nat := (l.map utf8CharLen).sum

/-- `str::split('/').last()`: the segment after the last `/` (the whole
string when it has no `/`). -/
def afterLastSlash (l : List Char) : List Char :=
  (l.reverse.takeWhile (fun c => c != Char.ofNat 47)).reverse

/-- `S3Storage`: bucket plus the optional configured name part prepended
to all object names (the `prefix` field of `S3StorageConfig`; called
`pfx` here because its source name is not a usable Lean identifier). -/
structure S3Storage where
  bucket : String
  pfx : Option String

/-- The identifier-extraction step of `S3Storage::get_s3_key`: lossily
decode the key, take the part before the first NUL (`split('\0').next()`
— always `Some`, so the source's `else` arm is dead), take the segment
after the last `/` (`split('/').last()` — likewise always `Some`), and
keep only alphanumeric, `_` and `-` characters. -/
def extracted_media_id (key : Key) : List Char :=
  let key_str := lossyDecode key
  let mxc_part := key_str.takeWhile (fun c => c != Char.ofNat 0)
  (afterLastSlash mxc_part).filter
    (fun c => rust_is_alphanumeric c || c = Char.ofNat 95 || c = Char.ofNat 45)

namespace S3Storage

/-- `S3Storage::get_s3_key`: use the extracted identifier when it is
nonempty and at least 10 bytes long, otherwise fall back to
`encode_key(key)` (base64 of the raw key bytes).  Prepend the configured
name part with a `/` separator when present, then strip all leading `/`
(`trim_start_matches('/')`). -/
def get_s3_key (self : S3Storage) (key : Key) : String :=
  let media_id := extracted_media_id key
  let s3_key :=
    if media_id ≠ [] ∧ 10 ≤ utf8Len media_id then String.mk media_id
    else encode_key key
  let final_key :=
    match self.pfx with
    | some p => p ++ "/" ++ s3_key
    | none => s3_key
  String.mk (final_key.toList.dropWhile (fun c => c == Char.ofNat 47))

/-- The object name `get_s3_key` produces on its fallback path: base64 of
the raw key bytes, with the configured name part prepended and leading
slashes stripped. -/
def fallback_object_name (self : S3Storage) (key : Key) : String :=
  let s3_key := encode_key key
  let final_key :=
    match self.pfx with
    | some p => p ++ "/" ++ s3_key
    | none => s3_key
  String.mk (final_key.toList.dropWhile (fun c => c == Char.ofNat 47))

/-- The fallback scheme the specification describes (§4.3): "the same
base64-digest scheme used by the filesystem backend" — base64 of the
SHA-256 digest of the key — with the configured name part prepended and
leading slashes stripped.  Stated from the spec's words, for comparison
with `get_s3_key`. -/
def digest_object_name (self : S3Storage) (key : Key) : String :=
  let s3_key := encode_key (sha256 key)
  let final_key :=
    match self.pfx with
    | some p => p ++ "/" ++ s3_key
    | none => s3_key
  String.mk (final_key.toList.dropWhile (fun c => c == Char.ofNat 47))

/-- `S3Storage::list_keys`: a placeholder in the source — always returns
the empty list, issuing no request. -/
def list_keys (_self : S3Storage) : Result (List Key) :=
  .ok []

end S3Storage

/-! ## Cache janitor

Modelled from the spec: the background cleanup task (§4.5, "Cache
janitor") driven by `enable_cleanup_task` / `cleanup_interval_seconds` is
not present under `src/`; the definitions below follow the spec's words.
On each tick the janitor enumerates the secondary's entries with metadata,
deletes every entry older than `cache_ttl_seconds` (when nonzero), and
then, when the remaining total exceeds `max_cache_size_mb` (when nonzero),
sorts the remaining entries by `modified` ascending and deletes them
oldest-first until the running total is at or below budget. -/

/-- One secondary-store entry as enumerated by the janitor: its key and
its metadata (size in bytes, modified time in nanoseconds). -/
structure CacheEntry where
  key : Key
  size : Nat
  modified : Nat
deriving DecidableEq, Repr

/-- Total stored size, in bytes, of a list of entries. -/
def totalSize (l : List CacheEntry) : Nat := (l.map (·.size)).sum

/-- Modelled from the spec: the janitor's TTL pass — delete every entry
whose age exceeds the TTL, when `cache_ttl_seconds` is nonzero. -/
def janitorTtlPass (cfg : HybridStrategyConfig) (now : Nat)
    (entries : List CacheEntry) : List CacheEntry :=
  if cfg.cache_ttl_seconds = 0 then entries
  else entries.filter
    (fun e => decide (now - e.modified ≤ cfg.cache_ttl_seconds * 1000000000))

/-- The janitor's sort: remaining entries by `modified` ascending (oldest
first); a deterministic stable sort, as the spec requires for ties. -/
def sortByModified (entries : List CacheEntry) : List CacheEntry :=
  entries.insertionSort (fun e1 e2 => e1.modified ≤ e2.modified)

instance : IsTotal CacheEntry (fun e1 e2 => e1.modified ≤ e2.modified) :=
  ⟨fun a b => Nat.le_total a.modified b.modified⟩

instance : IsTrans CacheEntry (fun e1 e2 => e1.modified ≤ e2.modified) :=
  ⟨fun _ _ _ h1 h2 => Nat.le_trans h1 h2⟩

/-- Delete entries oldest-first from the (ascending) list until the
running total is at or below `budget`. -/
def evictOldest (budget : Nat) : List CacheEntry → List CacheEntry
  | [] => []
  | e :: rest =>
    if totalSize (e :: rest) ≤ budget then e :: rest
    else evictOldest budget rest

/-- Modelled from the spec: the janitor's size pass — when
`max_cache_size_mb` is nonzero and the remaining total exceeds it, evict
oldest-first until within budget. -/
def janitorSizePass (cfg : HybridStrategyConfig)
    (entries : List CacheEntry) : List CacheEntry :=
  if cfg.max_cache_size_mb = 0 then entries
  else if totalSize entries ≤ cfg.max_cache_size_mb * 1048576 then entries
  else evictOldest (cfg.max_cache_size_mb * 1048576) (sortByModified entries)

/-- Modelled from the spec: one janitor run — the TTL pass followed by the
size pass, both over the secondary store's entries only. -/
def janitorRun (cfg : HybridStrategyConfig) (now : Nat)
    (entries : List CacheEntry) : List CacheEntry :=
  janitorSizePass cfg (janitorTtlPass cfg now entries)

/-! ## Failure-injecting test doubles

Modelled from the spec: §8's "simulated via test doubles" failure
injection — backends whose operations report storage-I/O failures. -/

/-- A backend whose every operation fails with a storage-I/O error. -/
def FailStore : Store Unit where
  createOp := fun _ _ _ _ => .error (.ioError "create unreachable")
  readOp := fun _ _ => .error (.ioError "read unreachable")
  deleteOp := fun _ _ => .error (.ioError "delete unreachable")
  existsOp := fun _ _ => .error (.ioError "exists unreachable")
  metadataOp := fun _ _ => .error (.ioError "metadata unreachable")
  listKeysOp := fun _ => .error (.ioError "list unreachable")

/-- A backend whose read succeeds (returning `[2]`) while its metadata
probe and delete fail: injects a failure into the hybrid's staleness
check. -/
def MetaFailStore : Store Unit where
  createOp := fun _ _ _ _ => .error (.ioError "create unreachable")
  readOp := fun _ _ => .ok (some [2])
  deleteOp := fun _ _ => .error (.ioError "delete unreachable")
  existsOp := fun _ _ => .error (.ioError "exists unreachable")
  metadataOp := fun _ _ => .error (.ioError "metadata unreachable")
  listKeysOp := fun _ => .error (.ioError "list unreachable")

/-- A backend holding one blob `[2]` whose recorded modified time is 0
(arbitrarily old), and whose delete always fails: injects a failure into
the hybrid's stale-copy eviction. -/
def ExpiredDeleteFailStore : Store Unit where
  createOp := fun _ _ _ _ => .error (.ioError "create unreachable")
  readOp := fun _ _ => .ok (some [2])
  deleteOp := fun _ _ => .error (.ioError "delete unreachable")
  existsOp := fun _ _ => .ok true
  metadataOp := fun _ _ => .ok (some ⟨1, 0⟩)
  listKeysOp := fun _ => .ok []

/-- A backend whose read returns `[2]` while its metadata probe reports
the entry absent — the state a real secondary reaches when the entry is
removed between the hybrid's read and its staleness probe. -/
def MetaAbsentStore : Store Unit where
  createOp := fun _ _ _ _ => .ok ()
  readOp := fun _ _ => .ok (some [2])
  deleteOp := fun _ _ => .ok ()
  existsOp := fun _ _ => .ok false
  metadataOp := fun _ _ => .ok none
  listKeysOp := fun _ => .ok []

/-- Did a `Result` report failure? -/
def Result.isFailure {α : Type} : Result α → Bool
  | .error _ => true
  | .ok _ => false

end MediaStorage

deriving instance DecidableEq for Except

namespace MediaStorage

/-! ## Helper lemmas -/

theorem memFind_cons_self (st : MemState) (k : Key) (e : MemEntry) :
    memFind ((k, e) :: st) k = some e := by
  simp [memFind]

/-- A SHA-256 digest is always 32 bytes, whatever the message. -/
theorem sha256_length (msg : List Nat) : (sha256 msg).length = 32 := by
  simp [sha256, wordBytes]

/-- Eviction always lands at or below budget. -/
theorem evictOldest_totalSize_le (budget : Nat) (l : List CacheEntry) :
    totalSize (evictOldest budget l) ≤ budget := by
  induction l with
  | nil => simp [evictOldest, totalSize]
  | cons e rest ih =>
    simp only [evictOldest]
    split
    · assumption
    · exact ih

/-- Eviction removes exactly a minimal oldest-first prefix: the result is
`l.drop n` for an `n` such that dropping any fewer entries would leave the
total above budget. -/
theorem evictOldest_eq_drop (budget : Nat) (l : List CacheEntry) :
    ∃ n, evictOldest budget l = l.drop n ∧
      ∀ m, m < n → budget < totalSize (l.drop m) := by
  induction l with
  | nil => exact ⟨0, rfl, by omega⟩
  | cons e rest ih =>
    by_cases h : totalSize (e :: rest) ≤ budget
    · exact ⟨0, by simp [evictOldest, h], by omega⟩
    · obtain ⟨n, hn, hmin⟩ := ih
      refine ⟨n + 1, by simpa [evictOldest, h] using hn, ?_⟩
      intro m hm
      match m with
      | 0 => simpa using Nat.lt_of_not_le h
      | m' + 1 => exact hmin m' (by omega)

/-- The caller-visible result of the hybrid's primary fall-through equals
the primary's read result when fallback is enabled, and not-found
otherwise. -/
theorem readPrimary_res {σp σs : Type} (H : HybridStorage σp σs)
    (st : HybridState σp σs) (key : Key) :
    (H.readPrimary st key).res =
      if H.config.read_fallback then H.primary.readOp st.p key
      else .ok none := by
  by_cases hrf : H.config.read_fallback = true
  · simp only [HybridStorage.readPrimary, hrf, if_true]
    cases h : H.primary.readOp st.p key with
    | error e => simp [h]
    | ok o =>
      cases o with
      | none => simp [h]
      | some data => by_cases hc : H.config.cache_on_read = true <;> simp [h, hc]
  · simp [HybridStorage.readPrimary, hrf]

theorem fsFind_cons_self (st : FsState) (p : String) (f : FsFile) :
    fsFind ((p, f) :: st) p = some f := by
  simp [fsFind]

/-- A path the lookup misses heads no entry of the modelled disk. -/
theorem fsFind_absent_mem (st : FsState) (path : String)
    (h : fsFind st path = none) :
    ∀ pr ∈ st, pr.1 ≠ path := by
  induction st with
  | nil => simp
  | cons pf rest ih =>
    rcases pf with ⟨p, f⟩
    by_cases hp : p = path
    · simp [fsFind, hp] at h
    · intro pr hpr
      rcases List.mem_cons.mp hpr with rfl | hmem
      · simpa using hp
      · exact ih (by simpa [fsFind, hp] using h) pr hmem

/-- Deleting a path that is absent from the modelled disk leaves the disk
unchanged. -/
theorem fsFilter_id_of_absent (st : FsState) (path : String)
    (h : fsFind st path = none) :
    st.filter (fun pf => decide (pf.1 ≠ path)) = st := by
  have hmem := fsFind_absent_mem st path h
  simp only [List.filter_eq_self, decide_eq_true_eq]
  intro a ha
  exact hmem a ha

/-- Synchronous dual-write round trip over functioning in-memory tiers:
create at `now1` with `write_to_both` and synchronous secondary write,
then read at `now2` within the TTL window — the read serves the created
bytes from the secondary alone. -/
theorem hybrid_sync_dualwrite_roundtrip (cfg : HybridStrategyConfig)
    (sp ss : MemState) (key : Key) (data : Data) (now1 now2 : Nat)
    (hwtb : cfg.write_to_both = true)
    (hasync : cfg.async_secondary_write = false)
    (hwin : cfg.cache_ttl_seconds = 0 ∨
      now2 - now1 ≤ cfg.cache_ttl_seconds * 1000000000) :
    ((HybridStorage.mk MemStore MemStore cfg).create now1 ⟨sp, ss⟩ key
      data).res = .ok () ∧
    ((HybridStorage.mk MemStore MemStore cfg).read now2
      ((HybridStorage.mk MemStore MemStore cfg).create now1 ⟨sp, ss⟩ key
        data).st key).res = .ok (some data) ∧
    ∀ ce ∈ ((HybridStorage.mk MemStore MemStore cfg).read now2
      ((HybridStorage.mk MemStore MemStore cfg).create now1 ⟨sp, ss⟩ key
        data).st key).calls, ce.1 = Tier.secondary := by
  have hst : (HybridStorage.mk MemStore MemStore cfg).create now1 ⟨sp, ss⟩
      key data =
      ⟨.ok (), ⟨(key, ⟨data, now1⟩) :: sp, (key, ⟨data, now1⟩) :: ss⟩,
        [(.primary, .createC key data), (.secondary, .createC key data)],
        []⟩ := by
    simp [HybridStorage.create, MemStore, hwtb, hasync]
  rw [hst]
  have hread : MemStore.readOp ((key, ⟨data, now1⟩) :: ss) key =
      .ok (some data) := by
    simp [MemStore, memFind_cons_self]
  by_cases h0 : cfg.cache_ttl_seconds = 0
  · have hice : (HybridStorage.mk MemStore MemStore cfg).is_cache_expired
        now2 ((key, ⟨data, now1⟩) :: ss) key = (.ok false, []) := by
      simp [HybridStorage.is_cache_expired, h0]
    refine ⟨rfl, ?_, ?_⟩ <;> simp [HybridStorage.read, hread, hice]
  · have hle : now2 - now1 ≤ cfg.cache_ttl_seconds * 1000000000 :=
      hwin.resolve_left h0
    have hmeta : MemStore.metadataOp ((key, ⟨data, now1⟩) :: ss) key =
        .ok (some ⟨data.length, now1⟩) := by
      simp [MemStore, memFind_cons_self]
    have hice : (HybridStorage.mk MemStore MemStore cfg).is_cache_expired
        now2 ((key, ⟨data, now1⟩) :: ss) key =
        (.ok false, [(.secondary, .metadataC key)]) := by
      simp [HybridStorage.is_cache_expired, h0, hmeta, Nat.not_lt.mpr hle]
    refine ⟨rfl, ?_, ?_⟩ <;> simp [HybridStorage.read, hread, hice]

/-- Read-through after a primary-only write over functioning in-memory
tiers: with `read_fallback` and a secondary holding nothing under the
key, the read misses the secondary and serves the primary's bytes. -/
theorem hybrid_read_miss_fallback (cfg : HybridStrategyConfig)
    (sp ss : MemState) (key : Key) (data : Data) (now : Nat)
    (hrf : cfg.read_fallback = true) (hfind : memFind ss key = none) :
    ((HybridStorage.mk MemStore MemStore cfg).read now
      ⟨(key, ⟨data, now⟩) :: sp, ss⟩ key).res = .ok (some data) := by
  have hread : MemStore.readOp ss key = .ok none := by
    simp [MemStore, hfind]
  have hprim : MemStore.readOp ((key, ⟨data, now⟩) :: sp) key =
      .ok (some data) := by
    simp [MemStore, memFind_cons_self]
  simp [HybridStorage.read, hread, readPrimary_res, hrf, hprim]

/-! ## Claims -/

/-- C2: with a positive TTL `T`, a secondary entry whose modified time is
more than `T` seconds before `now` is not served: the stale secondary
copy is deleted and the call's result is the primary's read result when
`read_fallback` is set, and not-found when it is not.  With TTL `0`, the
secondary's entry is returned regardless of its age. -/
theorem c2_ttl_expiry {σp σs : Type}
    (P : Store σp) (S : Store σs) (cfg : HybridStrategyConfig)
    (now : Nat) (st : HybridState σp σs) (key : Key) (d : Data)
    (hS : S.readOp st.s key = .ok (some d)) :
    (∀ meta : StorageMetadata, S.metadataOp st.s key = .ok (some meta) →
      0 < cfg.cache_ttl_seconds →
      cfg.cache_ttl_seconds * 1000000000 < now - meta.modified →
      (cfg.read_fallback = true →
        ((HybridStorage.mk P S cfg).read now st key).res =
          P.readOp st.p key) ∧
      (cfg.read_fallback = false →
        ((HybridStorage.mk P S cfg).read now st key).res = .ok none) ∧
      (Tier.secondary, CallEvent.deleteC key) ∈
        ((HybridStorage.mk P S cfg).read now st key).calls) ∧
    (cfg.cache_ttl_seconds = 0 →
      ((HybridStorage.mk P S cfg).read now st key).res = .ok (some d)) := by
  constructor
  · intro meta hM hT hage
    have hice : (HybridStorage.mk P S cfg).is_cache_expired now st.s key =
        (.ok true, [(.secondary, .metadataC key)]) := by
      simp [HybridStorage.is_cache_expired, Nat.pos_iff_ne_zero.mp hT, hM, hage]
    refine ⟨fun hrf => ?_, fun hrf => ?_, ?_⟩
    · cases hdel : S.deleteOp st.s key <;>
        simp [HybridStorage.read, hS, hice, hdel, readPrimary_res, hrf]
    · cases hdel : S.deleteOp st.s key <;>
        simp [HybridStorage.read, hS, hice, hdel, readPrimary_res, hrf]
    · cases hdel : S.deleteOp st.s key <;>
        simp [HybridStorage.read, hS, hice, hdel]
  · intro h0
    simp [HybridStorage.read, hS, HybridStorage.is_cache_expired, h0]

/-- C9: a secondary entry whose modified time lies in the future has age
computed as zero (`duration_since` error mapped to `Duration::ZERO`) and
is treated as fresh and served, for any TTL; a secondary whose metadata
probe reports the entry absent is likewise treated as not expired. -/
theorem c9_future_modified_fresh {σp σs : Type}
    (P : Store σp) (S : Store σs) (cfg : HybridStrategyConfig)
    (now : Nat) (st : HybridState σp σs) (key : Key) (d : Data)
    (hS : S.readOp st.s key = .ok (some d)) :
    (∀ meta : StorageMetadata, S.metadataOp st.s key = .ok (some meta) →
      now < meta.modified →
      ((HybridStorage.mk P S cfg).is_cache_expired now st.s key).1 =
        .ok false ∧
      ((HybridStorage.mk P S cfg).read now st key).res = .ok (some d)) ∧
    (S.metadataOp st.s key = .ok none →
      ((HybridStorage.mk P S cfg).is_cache_expired now st.s key).1 =
        .ok false ∧
      ((HybridStorage.mk P S cfg).read now st key).res = .ok (some d)) := by
  constructor
  · intro meta hM hfut
    have hage0 : now - meta.modified = 0 :=
      Nat.sub_eq_zero_of_le (Nat.le_of_lt hfut)
    by_cases h0 : cfg.cache_ttl_seconds = 0
    · have hice : (HybridStorage.mk P S cfg).is_cache_expired now st.s key =
          (.ok false, []) := by
        simp [HybridStorage.is_cache_expired, h0]
      exact ⟨by simp [hice], by simp [HybridStorage.read, hS, hice]⟩
    · have hle : now - meta.modified ≤ cfg.cache_ttl_seconds * 1000000000 := by
        omega
      have hice : (HybridStorage.mk P S cfg).is_cache_expired now st.s key =
          (.ok false, [(.secondary, .metadataC key)]) := by
        simp [HybridStorage.is_cache_expired, h0, hM, Nat.not_lt.mpr hle]
      exact ⟨by simp [hice], by simp [HybridStorage.read, hS, hice]⟩
  · intro hM
    by_cases h0 : cfg.cache_ttl_seconds = 0
    · have hice : (HybridStorage.mk P S cfg).is_cache_expired now st.s key =
          (.ok false, []) := by
        simp [HybridStorage.is_cache_expired, h0]
      exact ⟨by simp [hice], by simp [HybridStorage.read, hS, hice]⟩
    · have hice : (HybridStorage.mk P S cfg).is_cache_expired now st.s key =
          (.ok false, [(.secondary, .metadataC key)]) := by
        simp [HybridStorage.is_cache_expired, h0, hM]
      exact ⟨by simp [hice], by simp [HybridStorage.read, hS, hice]⟩

/-- C3: for every key, the hybrid `delete` reports failure exactly when
both the primary delete and the secondary delete report failure; if one
or neither fails, it reports success. -/
theorem c3_hybrid_delete_dual_failure {σp σs : Type}
    (P : Store σp) (S : Store σs) (cfg : HybridStrategyConfig)
    (st : HybridState σp σs) (key : Key) :
    ((HybridStorage.mk P S cfg).delete st key).res.isFailure = true ↔
      ((P.deleteOp st.p key).isFailure = true ∧
        (S.deleteOp st.s key).isFailure = true) := by
  cases hp : P.deleteOp st.p key <;> cases hs : S.deleteOp st.s key <;>
    simp [HybridStorage.delete, hp, hs, Result.isFailure]

/-- C10: the filesystem and the object-store backends' `list_keys` always
return the empty list; the hybrid's `list_keys` returns exactly its
primary's result, issuing its single sub-call to the primary; hence a
hybrid over these leaves enumerates no keys even when blobs exist. -/
theorem c10_list_keys_placeholder :
    (∀ (fs : FilesystemStorage) (st : FsState), fs.list_keys st = .ok []) ∧
    (∀ s3 : S3Storage, s3.list_keys = .ok []) ∧
    (∀ (σp σs : Type) (P : Store σp) (S : Store σs)
      (cfg : HybridStrategyConfig) (st : HybridState σp σs),
      ((HybridStorage.mk P S cfg).list_keys st).res = P.listKeysOp st.p ∧
      ((HybridStorage.mk P S cfg).list_keys st).calls =
        [(Tier.primary, CallEvent.listKeysC)]) ∧
    (∀ (σs : Type) (fs : FilesystemStorage) (S : Store σs)
      (cfg : HybridStrategyConfig) (stp : FsState) (sts : σs),
      ((HybridStorage.mk fs.store S cfg).list_keys ⟨stp, sts⟩).res = .ok []) :=
  ⟨fun _ _ => rfl, fun _ => rfl, fun _ _ _ _ _ _ => ⟨rfl, rfl⟩,
    fun _ _ _ _ _ _ => rfl⟩

/-- Witness for C2: a secondary entry written at time 0 read at 2 s with a
1 s TTL is evicted and the primary's (different) bytes are returned; with
TTL 0 the same aged entry is served. -/
theorem c2_ttl_expiry_witness :
    MemStore.readOp [([1], ⟨[2], 0⟩)] [1] = .ok (some [2]) ∧
    MemStore.metadataOp [([1], ⟨[2], 0⟩)] [1] = .ok (some ⟨1, 0⟩) ∧
    0 < (1 : Nat) ∧ 1 * 1000000000 < 2000000000 - (0 : Nat) ∧
    ((HybridStorage.mk MemStore MemStore
        ⟨false, true, true, true, 1, 0, true, 3600⟩).read 2000000000
      ⟨[([1], ⟨[3], 0⟩)], [([1], ⟨[2], 0⟩)]⟩ [1]).res =
      MemStore.readOp [([1], ⟨[3], 0⟩)] [1] ∧
    (Tier.secondary, CallEvent.deleteC [1]) ∈
      ((HybridStorage.mk MemStore MemStore
        ⟨false, true, true, true, 1, 0, true, 3600⟩).read 2000000000
      ⟨[([1], ⟨[3], 0⟩)], [([1], ⟨[2], 0⟩)]⟩ [1]).calls ∧
    ((HybridStorage.mk MemStore MemStore
        ⟨false, true, true, true, 0, 0, true, 3600⟩).read 2000000000
      ⟨[([1], ⟨[3], 0⟩)], [([1], ⟨[2], 0⟩)]⟩ [1]).res = .ok (some [2]) := by
  refine ⟨rfl, rfl, by decide, by decide, ?_, ?_, ?_⟩
  · exact ((c2_ttl_expiry MemStore MemStore
      ⟨false, true, true, true, 1, 0, true, 3600⟩ 2000000000
      ⟨[([1], ⟨[3], 0⟩)], [([1], ⟨[2], 0⟩)]⟩ [1] [2] rfl).1
      ⟨1, 0⟩ rfl (by decide) (by decide)).1 rfl
  · exact ((c2_ttl_expiry MemStore MemStore
      ⟨false, true, true, true, 1, 0, true, 3600⟩ 2000000000
      ⟨[([1], ⟨[3], 0⟩)], [([1], ⟨[2], 0⟩)]⟩ [1] [2] rfl).1
      ⟨1, 0⟩ rfl (by decide) (by decide)).2.2
  · exact (c2_ttl_expiry MemStore MemStore
      ⟨false, true, true, true, 0, 0, true, 3600⟩ 2000000000
      ⟨[([1], ⟨[3], 0⟩)], [([1], ⟨[2], 0⟩)]⟩ [1] [2] rfl).2 rfl

/-- Witness for C9: an entry stamped at time 10 observed at time 5 (clock
skew) is served as fresh under the default 24 h TTL; an entry whose
metadata probe reports absence is likewise served. -/
theorem c9_future_modified_fresh_witness :
    MemStore.readOp [([1], ⟨[2], 10⟩)] [1] = .ok (some [2]) ∧
    MemStore.metadataOp [([1], ⟨[2], 10⟩)] [1] = .ok (some ⟨1, 10⟩) ∧
    (5 : Nat) < 10 ∧
    ((HybridStorage.mk MemStore MemStore
        HybridStrategyConfig.defaultConfig).read 5
      ⟨[], [([1], ⟨[2], 10⟩)]⟩ [1]).res = .ok (some [2]) ∧
    MetaAbsentStore.readOp () [1] = .ok (some [2]) ∧
    MetaAbsentStore.metadataOp () [1] = .ok none ∧
    ((HybridStorage.mk MemStore MetaAbsentStore
        HybridStrategyConfig.defaultConfig).read 5 ⟨[], ()⟩ [1]).res =
      .ok (some [2]) := by
  refine ⟨rfl, rfl, by decide, ?_, rfl, rfl, ?_⟩
  · exact ((c9_future_modified_fresh MemStore MemStore
      HybridStrategyConfig.defaultConfig 5 ⟨[], [([1], ⟨[2], 10⟩)]⟩ [1] [2]
      rfl).1 ⟨1, 10⟩ rfl (by decide)).2
  · exact ((c9_future_modified_fresh MemStore MetaAbsentStore
      HybridStrategyConfig.defaultConfig 5 ⟨[], ()⟩ [1] [2] rfl).2 rfl).2

/-- Counterexample to C5 as stated: with a healthy primary holding the
blob and a secondary whose read fails, the hybrid `read` propagates the
secondary's failure instead of returning the primary's result (the `?` on
`self.secondary.read(key).await?`). -/
theorem c5_counterexample :
    ((HybridStorage.mk MemStore FailStore
        HybridStrategyConfig.defaultConfig).read 0
      ⟨[([1], ⟨[2], 0⟩)], ()⟩ [1]).res = .error (.ioError "read unreachable") ∧
    MemStore.readOp [([1], ⟨[2], 0⟩)] [1] = .ok (some [2]) ∧
    ((HybridStorage.mk MemStore FailStore
        HybridStrategyConfig.defaultConfig).read 0
      ⟨[([1], ⟨[2], 0⟩)], ()⟩ [1]).res ≠ .ok (some [2]) := by
  refine ⟨rfl, rfl, ?_⟩
  decide

/-- C5 as amended: a secondary-side failure of the read probe or of the
staleness metadata probe propagates to the hybrid `read`'s caller; only
the stale-copy deletion failure is absorbed (the fall-through proceeds as
if the deletion had succeeded); and a synchronous dual-write secondary
failure propagates from `create`. -/
theorem c5_amended_secondary_failures {σp σs : Type}
    (P : Store σp) (S : Store σs) (cfg : HybridStrategyConfig)
    (now : Nat) (st : HybridState σp σs) (key : Key) :
    (∀ e, S.readOp st.s key = .error e →
      ((HybridStorage.mk P S cfg).read now st key).res = .error e) ∧
    (∀ (d : Data) e, S.readOp st.s key = .ok (some d) →
      0 < cfg.cache_ttl_seconds →
      S.metadataOp st.s key = .error e →
      ((HybridStorage.mk P S cfg).read now st key).res = .error e) ∧
    (∀ (d : Data) (meta : StorageMetadata) e,
      S.readOp st.s key = .ok (some d) →
      S.metadataOp st.s key = .ok (some meta) →
      0 < cfg.cache_ttl_seconds →
      cfg.cache_ttl_seconds * 1000000000 < now - meta.modified →
      S.deleteOp st.s key = .error e →
      ((HybridStorage.mk P S cfg).read now st key).res =
        ((HybridStorage.mk P S cfg).readPrimary st key).res) ∧
    (∀ (data : Data) (p' : σp) e, cfg.write_to_both = true →
      cfg.async_secondary_write = false →
      P.createOp now st.p key data = .ok p' →
      S.createOp now st.s key data = .error e →
      ((HybridStorage.mk P S cfg).create now st key data).res = .error e) := by
  refine ⟨fun e hE => ?_, fun d e hS hT hM => ?_, fun d meta e hS hM hT hage hdel => ?_,
    fun data p' e hw ha hp hs => ?_⟩
  · simp [HybridStorage.read, hE]
  · have hice : (HybridStorage.mk P S cfg).is_cache_expired now st.s key =
        (.error e, [(.secondary, .metadataC key)]) := by
      simp [HybridStorage.is_cache_expired, Nat.pos_iff_ne_zero.mp hT, hM]
    simp [HybridStorage.read, hS, hice]
  · have hice : (HybridStorage.mk P S cfg).is_cache_expired now st.s key =
        (.ok true, [(.secondary, .metadataC key)]) := by
      simp [HybridStorage.is_cache_expired, Nat.pos_iff_ne_zero.mp hT, hM, hage]
    simp [HybridStorage.read, hS, hice, hdel]
  · simp [HybridStorage.create, hp, hw, ha, hs]

/-- Witness for the amended C5: the failing-secondary doubles exercise
all four propagation/absorption cases. -/
theorem c5_amended_secondary_failures_witness :
    ((HybridStorage.mk MemStore FailStore
        HybridStrategyConfig.defaultConfig).read 0 ⟨[], ()⟩ [1]).res =
      .error (.ioError "read unreachable") ∧
    ((HybridStorage.mk MemStore MetaFailStore
        HybridStrategyConfig.defaultConfig).read 0 ⟨[], ()⟩ [1]).res =
      .error (.ioError "metadata unreachable") ∧
    ((HybridStorage.mk MemStore ExpiredDeleteFailStore
        ⟨false, true, true, true, 1, 0, true, 3600⟩).read 2000000000
      ⟨[([1], ⟨[3], 0⟩)], ()⟩ [1]).res =
      ((HybridStorage.mk MemStore ExpiredDeleteFailStore
        ⟨false, true, true, true, 1, 0, true, 3600⟩).readPrimary
      ⟨[([1], ⟨[3], 0⟩)], ()⟩ [1]).res ∧
    ((HybridStorage.mk MemStore FailStore
        ⟨true, true, true, false, 86400, 0, true, 3600⟩).create 0
      ⟨[], ()⟩ [1] [2]).res = .error (.ioError "create unreachable") := by
  refine ⟨?_, ?_, ?_, ?_⟩
  · exact (c5_amended_secondary_failures MemStore FailStore
      HybridStrategyConfig.defaultConfig 0 ⟨[], ()⟩ [1]).1 _ rfl
  · exact (c5_amended_secondary_failures MemStore MetaFailStore
      HybridStrategyConfig.defaultConfig 0 ⟨[], ()⟩ [1]).2.1 [2] _ rfl
      (by decide) rfl
  · exact (c5_amended_secondary_failures MemStore ExpiredDeleteFailStore
      ⟨false, true, true, true, 1, 0, true, 3600⟩ 2000000000
      ⟨[([1], ⟨[3], 0⟩)], ()⟩ [1]).2.2.1 [2] ⟨1, 0⟩ _ rfl rfl
      (by decide) (by decide) rfl
  · exact (c5_amended_secondary_failures MemStore FailStore
      ⟨true, true, true, false, 86400, 0, true, 3600⟩ 0 ⟨[], ()⟩ [1]).2.2.2
      [2] _ _ rfl rfl rfl rfl

/-- C4: with `write_to_both = true` and `async_secondary_write = false`,
after a successful `create(k, d)` a subsequent `read(k)` within the TTL
window returns `d`, and every sub-call of that read goes to the secondary
— none reaches the primary. -/
theorem c4_cache_hit_no_primary_call (cfg : HybridStrategyConfig)
    (sp ss : MemState) (key : Key) (data : Data) (now1 now2 : Nat)
    (hwtb : cfg.write_to_both = true)
    (hasync : cfg.async_secondary_write = false)
    (hwin : cfg.cache_ttl_seconds = 0 ∨
      now2 - now1 ≤ cfg.cache_ttl_seconds * 1000000000) :
    ((HybridStorage.mk MemStore MemStore cfg).create now1 ⟨sp, ss⟩ key
      data).res = .ok () ∧
    ((HybridStorage.mk MemStore MemStore cfg).read now2
      ((HybridStorage.mk MemStore MemStore cfg).create now1 ⟨sp, ss⟩ key
        data).st key).res = .ok (some data) ∧
    ∀ ce ∈ ((HybridStorage.mk MemStore MemStore cfg).read now2
      ((HybridStorage.mk MemStore MemStore cfg).create now1 ⟨sp, ss⟩ key
        data).st key).calls, ce.1 = Tier.secondary :=
  hybrid_sync_dualwrite_roundtrip cfg sp ss key data now1 now2 hwtb hasync
    hwin

/-- Witness for C4: dual write of `[2]` at time 0, read back at 1000 ns
under the default 24 h TTL. -/
theorem c4_cache_hit_no_primary_call_witness :
    (⟨true, true, true, false, 86400, 0, true, 3600⟩ :
      HybridStrategyConfig).write_to_both = true ∧
    (⟨true, true, true, false, 86400, 0, true, 3600⟩ :
      HybridStrategyConfig).async_secondary_write = false ∧
    ((HybridStorage.mk MemStore MemStore
      ⟨true, true, true, false, 86400, 0, true, 3600⟩).create 0 ⟨[], []⟩
      [1] [2]).res = .ok () ∧
    ((HybridStorage.mk MemStore MemStore
      ⟨true, true, true, false, 86400, 0, true, 3600⟩).read 1000
      ((HybridStorage.mk MemStore MemStore
        ⟨true, true, true, false, 86400, 0, true, 3600⟩).create 0 ⟨[], []⟩
        [1] [2]).st [1]).res = .ok (some [2]) ∧
    ∀ ce ∈ ((HybridStorage.mk MemStore MemStore
      ⟨true, true, true, false, 86400, 0, true, 3600⟩).read 1000
      ((HybridStorage.mk MemStore MemStore
        ⟨true, true, true, false, 86400, 0, true, 3600⟩).create 0 ⟨[], []⟩
        [1] [2]).st [1]).calls, ce.1 = Tier.secondary := by
  have h := c4_cache_hit_no_primary_call
    ⟨true, true, true, false, 86400, 0, true, 3600⟩ [] [] [1] [2] 0 1000
    rfl rfl (Or.inr (by decide))
  exact ⟨rfl, rfl, h.1, h.2.1, h.2.2⟩

/-- Counterexample to C1 as stated: with the policy
`write_to_both = false, read_fallback = false` over functioning in-memory
stores, `create(k, d)` succeeds but the subsequent `read(k)` returns
not-found instead of `d` — the round trip fails for this policy. -/
theorem c1_counterexample :
    ((HybridStorage.mk MemStore MemStore
      ⟨false, false, true, true, 86400, 0, true, 3600⟩).create 0 ⟨[], []⟩
      [1] [2]).res = .ok () ∧
    ((HybridStorage.mk MemStore MemStore
      ⟨false, false, true, true, 86400, 0, true, 3600⟩).read 0
      ((HybridStorage.mk MemStore MemStore
        ⟨false, false, true, true, 86400, 0, true, 3600⟩).create 0 ⟨[], []⟩
        [1] [2]).st [1]).res = .ok none ∧
    ((HybridStorage.mk MemStore MemStore
      ⟨false, false, true, true, 86400, 0, true, 3600⟩).read 0
      ((HybridStorage.mk MemStore MemStore
        ⟨false, false, true, true, 86400, 0, true, 3600⟩).create 0 ⟨[], []⟩
        [1] [2]).st [1]).res ≠ .ok (some [2]) := by
  refine ⟨rfl, rfl, ?_⟩
  decide

/-- C1 as amended: `create(k, d)` followed by `read(k)` returns exactly
`d` for the filesystem backend (always), and for the hybrid backend over
functioning stores whenever the policy dual-writes synchronously
(`write_to_both ∧ ¬async_secondary_write`), or `read_fallback` is set and
the secondary holds no entry under `k`. -/
theorem c1_roundtrip_amended :
    (∀ (fs : FilesystemStorage) (now : Nat) (st : FsState) (key : Key)
      (data : Data) (st' : FsState),
      fs.create now st key data = .ok st' →
      fs.read st' key = .ok (some data)) ∧
    (∀ (cfg : HybridStrategyConfig) (sp ss : MemState) (key : Key)
      (data : Data) (now : Nat),
      ((cfg.write_to_both = true ∧ cfg.async_secondary_write = false) ∨
        (cfg.read_fallback = true ∧ memFind ss key = none)) →
      ((HybridStorage.mk MemStore MemStore cfg).create now ⟨sp, ss⟩ key
        data).res = .ok () ∧
      ((HybridStorage.mk MemStore MemStore cfg).read now
        ((HybridStorage.mk MemStore MemStore cfg).create now ⟨sp, ss⟩ key
          data).st key).res = .ok (some data)) := by
  constructor
  · intro fs now st key data st' hc
    simp only [FilesystemStorage.create, Except.ok.injEq] at hc
    subst hc
    simp [FilesystemStorage.read, fsFind_cons_self]
  · intro cfg sp ss key data now hcond
    rcases hcond with ⟨hw, ha⟩ | ⟨hrf, hfind⟩
    · have h := hybrid_sync_dualwrite_roundtrip cfg sp ss key data now now
        hw ha (Or.inr (by omega))
      exact ⟨h.1, h.2.1⟩
    · by_cases hw : cfg.write_to_both = true
      · by_cases ha : cfg.async_secondary_write = true
        · have hst : (HybridStorage.mk MemStore MemStore cfg).create now
              ⟨sp, ss⟩ key data =
              ⟨.ok (), ⟨(key, ⟨data, now⟩) :: sp, ss⟩,
                [(.primary, .createC key data)],
                [.secondaryCreate key data]⟩ := by
            simp [HybridStorage.create, MemStore, hw, ha]
          rw [hst]
          exact ⟨rfl, hybrid_read_miss_fallback cfg sp ss key data now hrf
            hfind⟩
        · have ha' : cfg.async_secondary_write = false := by
            revert ha; cases cfg.async_secondary_write <;> simp
          have h := hybrid_sync_dualwrite_roundtrip cfg sp ss key data now
            now hw ha' (Or.inr (by omega))
          exact ⟨h.1, h.2.1⟩
      · have hw' : cfg.write_to_both = false := by
          revert hw; cases cfg.write_to_both <;> simp
        have hst : (HybridStorage.mk MemStore MemStore cfg).create now
            ⟨sp, ss⟩ key data =
            ⟨.ok (), ⟨(key, ⟨data, now⟩) :: sp, ss⟩,
              [(.primary, .createC key data)], []⟩ := by
          simp [HybridStorage.create, MemStore, hw']
        rw [hst]
        exact ⟨rfl, hybrid_read_miss_fallback cfg sp ss key data now hrf
          hfind⟩

/-- Witness for the amended C1: the filesystem round trip at a concrete
key, and the hybrid round trip under the default policy with an empty
secondary. -/
theorem c1_roundtrip_amended_witness :
    (FilesystemStorage.mk "/media").create 0 [] [1] [2] =
      .ok [((FilesystemStorage.mk "/media").get_path [1], ⟨[2], 0⟩)] ∧
    (FilesystemStorage.mk "/media").read
      [((FilesystemStorage.mk "/media").get_path [1], ⟨[2], 0⟩)] [1] =
      .ok (some [2]) ∧
    ((HybridStorage.mk MemStore MemStore
      HybridStrategyConfig.defaultConfig).create 7 ⟨[], []⟩ [1] [2]).res =
      .ok () ∧
    ((HybridStorage.mk MemStore MemStore
      HybridStrategyConfig.defaultConfig).read 7
      ((HybridStorage.mk MemStore MemStore
        HybridStrategyConfig.defaultConfig).create 7 ⟨[], []⟩ [1]
        [2]).st [1]).res = .ok (some [2]) := by
  have h1 := c1_roundtrip_amended.1 (FilesystemStorage.mk "/media") 0 []
    [1] [2] [((FilesystemStorage.mk "/media").get_path [1], ⟨[2], 0⟩)] rfl
  have h2 := c1_roundtrip_amended.2 HybridStrategyConfig.defaultConfig []
    [] [1] [2] 7 (Or.inr ⟨rfl, rfl⟩)
  exact ⟨rfl, h1, h2.1, h2.2⟩

set_option maxRecDepth 100000 in
/-- Counterexample to C6 as stated: for the key "ab" (bytes `[97, 98]`),
from which no identifier of length ≥ 10 can be extracted, the
object-store backend produces `"YWI"` — the base64 of the raw key bytes —
which differs from the filesystem backend's scheme (base64 of the SHA-256
digest of the key). -/
theorem c6_counterexample :
    S3Storage.get_s3_key ⟨"bucket", none⟩ [97, 98] = "YWI" ∧
    S3Storage.get_s3_key ⟨"bucket", none⟩ [97, 98] ≠
      S3Storage.digest_object_name ⟨"bucket", none⟩ [97, 98] := by
  constructor
  · decide
  · decide

/-- C6 as amended: for every key from which no identifier of sufficient
length can be extracted, the object-store backend derives the remote
object name as the URL-safe, padding-free base64 encoding of the raw key
bytes (not of a digest), with the optional configured name part
prepended. -/
theorem c6_fallback_scheme (self : S3Storage) (key : Key)
    (h : extracted_media_id key = [] ∨
      utf8Len (extracted_media_id key) < 10) :
    self.get_s3_key key = self.fallback_object_name key := by
  have hcond : ¬(extracted_media_id key ≠ [] ∧
      10 ≤ utf8Len (extracted_media_id key)) := by
    rcases h with h | h
    · intro hc; exact hc.1 h
    · intro hc; omega
  simp [S3Storage.get_s3_key, S3Storage.fallback_object_name, hcond]

/-- Witness for the amended C6: the key "ab" extracts only the 2-byte
identifier "ab", so the fallback name (with a configured name part) is
produced. -/
theorem c6_fallback_scheme_witness :
    utf8Len (extracted_media_id [97, 98]) < 10 ∧
    S3Storage.get_s3_key ⟨"bucket", some "media"⟩ [97, 98] =
      S3Storage.fallback_object_name ⟨"bucket", some "media"⟩ [97, 98] :=
  ⟨by decide,
    c6_fallback_scheme ⟨"bucket", some "media"⟩ [97, 98] (Or.inr (by decide))⟩

/-- Counterexample to C7 as stated: with `max_cache_size_mb = 1` and a 1 s
TTL, a single 1-byte entry aged 10 s is already within the size bound —
no eviction is needed to reach it — yet the run removes it (the TTL
pass), so the removed entries are not exactly those needed for the size
bound. -/
theorem c7_counterexample :
    0 < (⟨false, true, true, true, 1, 1, true, 3600⟩ :
      HybridStrategyConfig).max_cache_size_mb ∧
    totalSize [⟨[1], 1, 0⟩] ≤ 1 * 1048576 ∧
    janitorRun ⟨false, true, true, true, 1, 1, true, 3600⟩ 10000000000
      [⟨[1], 1, 0⟩] = [] ∧
    janitorRun ⟨false, true, true, true, 1, 1, true, 3600⟩ 10000000000
      [⟨[1], 1, 0⟩] ≠ [⟨[1], 1, 0⟩] := by
  refine ⟨by decide, by decide, by decide, by decide⟩

/-- C7 as amended: with `max_cache_size_mb = M > 0`, after one janitor run
the secondary's total stored size is at most M MiB; the size pass removes
either nothing (when the post-TTL total is already within budget) or
exactly the minimal oldest-by-modified-time prefix of the
ascending-by-`modified` ordering needed to come within budget; the TTL
pass may additionally have removed entries older than the TTL.  The sort
is a permutation of the surviving entries, ascending in `modified`. -/
theorem c7_janitor_size_bound (cfg : HybridStrategyConfig) (now : Nat)
    (entries : List CacheEntry) (hM : 0 < cfg.max_cache_size_mb) :
    totalSize (janitorRun cfg now entries) ≤
      cfg.max_cache_size_mb * 1048576 ∧
    (sortByModified (janitorTtlPass cfg now entries)).Perm
      (janitorTtlPass cfg now entries) ∧
    (sortByModified (janitorTtlPass cfg now entries)).Sorted
      (fun e1 e2 => e1.modified ≤ e2.modified) ∧
    ((totalSize (janitorTtlPass cfg now entries) ≤
        cfg.max_cache_size_mb * 1048576 ∧
      janitorSizePass cfg (janitorTtlPass cfg now entries) =
        janitorTtlPass cfg now entries) ∨
      ∃ n, janitorSizePass cfg (janitorTtlPass cfg now entries) =
          (sortByModified (janitorTtlPass cfg now entries)).drop n ∧
        totalSize ((sortByModified (janitorTtlPass cfg now entries)).drop n) ≤
          cfg.max_cache_size_mb * 1048576 ∧
        ∀ m, m < n → cfg.max_cache_size_mb * 1048576 <
          totalSize ((sortByModified (janitorTtlPass cfg now entries)).drop m)) := by
  have hne : cfg.max_cache_size_mb ≠ 0 := Nat.pos_iff_ne_zero.mp hM
  refine ⟨?_, List.perm_insertionSort _ _, List.sorted_insertionSort _ _, ?_⟩
  · unfold janitorRun janitorSizePass
    simp only [hne, if_false]
    split
    · assumption
    · exact evictOldest_totalSize_le _ _
  · by_cases hle : totalSize (janitorTtlPass cfg now entries) ≤
        cfg.max_cache_size_mb * 1048576
    · exact Or.inl ⟨hle, by simp [janitorSizePass, hne, hle]⟩
    · refine Or.inr ?_
      obtain ⟨n, hn, hmin⟩ := evictOldest_eq_drop
        (cfg.max_cache_size_mb * 1048576)
        (sortByModified (janitorTtlPass cfg now entries))
      refine ⟨n, by simp [janitorSizePass, hne, hle, hn], ?_, hmin⟩
      rw [← hn]
      exact evictOldest_totalSize_le _ _

/-- Witness for the amended C7: two entries totalling 1.6 MB under a 1 MiB
budget; the older (modified 3) is evicted, the newer (modified 5) kept. -/
theorem c7_janitor_size_bound_witness :
    0 < (⟨false, true, true, true, 0, 1, true, 3600⟩ :
      HybridStrategyConfig).max_cache_size_mb ∧
    totalSize (janitorRun ⟨false, true, true, true, 0, 1, true, 3600⟩ 100
      [⟨[1], 1000000, 5⟩, ⟨[2], 600000, 3⟩]) ≤ 1 * 1048576 ∧
    janitorRun ⟨false, true, true, true, 0, 1, true, 3600⟩ 100
      [⟨[1], 1000000, 5⟩, ⟨[2], 600000, 3⟩] = [⟨[1], 1000000, 5⟩] := by
  have h := c7_janitor_size_bound ⟨false, true, true, true, 0, 1, true, 3600⟩
    100 [⟨[1], 1000000, 5⟩, ⟨[2], 600000, 3⟩] (by decide)
  exact ⟨by decide, h.1, by decide⟩

/-- C8: `delete` is idempotent — the filesystem backend's delete on an
absent key succeeds leaving the disk unchanged, two consecutive deletes
both succeed, and the hybrid backend over functioning stores likewise
succeeds on both of two consecutive deletes (in particular on an absent
key). -/
theorem c8_delete_idempotent :
    (∀ (fs : FilesystemStorage) (st : FsState) (key : Key),
      fs.read st key = .ok none → fs.delete st key = .ok st) ∧
    (∀ (fs : FilesystemStorage) (st : FsState) (key : Key),
      ∃ st1 st2, fs.delete st key = .ok st1 ∧ fs.delete st1 key = .ok st2) ∧
    (∀ (cfg : HybridStrategyConfig) (sp ss : MemState) (key : Key),
      ((HybridStorage.mk MemStore MemStore cfg).delete ⟨sp, ss⟩ key).res =
        .ok () ∧
      ((HybridStorage.mk MemStore MemStore cfg).delete
        ((HybridStorage.mk MemStore MemStore cfg).delete ⟨sp, ss⟩ key).st
        key).res = .ok ()) := by
  refine ⟨?_, ?_, ?_⟩
  · intro fs st key h
    simp only [FilesystemStorage.read, Except.ok.injEq,
      Option.map_eq_none'] at h
    simp only [FilesystemStorage.delete]
    rw [fsFilter_id_of_absent st _ h]
  · intro fs st key
    exact ⟨_, _, rfl, rfl⟩
  · intro cfg sp ss key
    exact ⟨rfl, rfl⟩

/-- Witness for C8: deleting the never-written key `[1]` from an empty
filesystem backend succeeds and leaves the (empty) disk unchanged. -/
theorem c8_delete_idempotent_witness :
    (FilesystemStorage.mk "/media").read [] [1] = .ok none ∧
    (FilesystemStorage.mk "/media").delete [] [1] = .ok [] :=
  ⟨rfl, c8_delete_idempotent.1 (FilesystemStorage.mk "/media") [] [1] rfl⟩

end MediaStorage
